import Mathlib

/-!
Verification of the binwalk-ng structure-parsing and extraction core.

The Rust sources are shallowly embedded: byte buffers become `List Nat`
(each element a `u8` value, `< 256`), machine arithmetic is `Nat` with
explicit `% 256` where the machine wraps, fallible parsers return
`Except StructureError _`, and a Rust panic (an unchecked slice index)
is modelled by `Option` with `none` for the panic.
-/

namespace BinwalkNG

/-- Error return value of structure parsers (`src/structures/common.rs`). -/
structure StructureError where
deriving DecidableEq, Repr

/-- Embeds `src/common.rs` `is_offset_safe`: validates data offsets to prevent
out-of-bounds access and infinite loops.  The first guard models the
`if let Some(previous_offset) = last_offset && previous_offset >= next_offset`
early return; the second models `next_offset >= available_data`. -/
def is_offset_safe (available_data : Nat) (next_offset : Nat)
    (last_offset : Option Nat) : Bool :=
  if last_offset.any fun previous_offset => previous_offset ≥ next_offset then
    false
  else if next_offset ≥ available_data then
    false
  else
    true

/-- Little-endian integer read: `n` bytes of `data` starting at `off`,
least-significant byte first.  This is the meaning of the zerocopy
`U16<LE>/U32<LE>/U64<LE>` field reads (`fromBytes` of the packed structs)
and of `uXX::from_le_bytes` on byte values. -/
def readLE (data : List Nat) (off : Nat) : Nat → Nat
  | 0 => 0
  | n + 1 => data.getD off 0 + 256 * readLE data (off + 1) n

/-- Embeds `src/structures/common.rs` `type_to_size`: byte width of a structure
field type tag; `none` for an unknown tag. -/
def type_to_size (ctype : String) : Option Nat :=
  match ctype with
  | "u8" => some 1
  | "u16" => some 2
  | "u24" => some 3
  | "u32" => some 4
  | "u64" => some 8
  | _ => none

/-- One arm of the `match csize` in `src/structures/common.rs` `parse`:
assemble the `csize` raw bytes just split off into an unsigned integer.
`raw` has exactly `csize` elements, each a `u8` value, so the
`uXX::from_(le|be)_bytes` reconstructions and the shift-or chains of the
`u24` arm are the weighted byte sums written here.  The catch-all arm
returns `StructureError`, exactly as the source does (it is unreachable
from `parse` because `type_to_size` only produces 1, 2, 3, 4 or 8). -/
def decode_field (csize : Nat) (raw : List Nat) (endianness : String) :
    Except StructureError Nat :=
  match csize with
  | 1 => .ok (raw.getD 0 0)
  | 2 =>
    if endianness = "big" then
      .ok (raw.getD 1 0 + 256 * raw.getD 0 0)
    else
      .ok (raw.getD 0 0 + 256 * raw.getD 1 0)
  | 4 =>
    if endianness = "big" then
      .ok (raw.getD 3 0 + 256 * raw.getD 2 0 + 65536 * raw.getD 1 0 +
        16777216 * raw.getD 0 0)
    else
      .ok (raw.getD 0 0 + 256 * raw.getD 1 0 + 65536 * raw.getD 2 0 +
        16777216 * raw.getD 3 0)
  | 8 =>
    if endianness = "big" then
      .ok (raw.getD 7 0 + 256 * raw.getD 6 0 + 65536 * raw.getD 5 0 +
        16777216 * raw.getD 4 0 + 4294967296 * raw.getD 3 0 +
        1099511627776 * raw.getD 2 0 + 281474976710656 * raw.getD 1 0 +
        72057594037927936 * raw.getD 0 0)
    else
      .ok (raw.getD 0 0 + 256 * raw.getD 1 0 + 65536 * raw.getD 2 0 +
        16777216 * raw.getD 3 0 + 4294967296 * raw.getD 4 0 +
        1099511627776 * raw.getD 5 0 + 281474976710656 * raw.getD 6 0 +
        72057594037927936 * raw.getD 7 0)
  | 3 =>
    if endianness = "big" then
      .ok (65536 * raw.getD 0 0 + 256 * raw.getD 1 0 + raw.getD 2 0)
    else
      .ok (65536 * raw.getD 2 0 + 256 * raw.getD 1 0 + raw.getD 0 0)
  | _ => .error ⟨⟩

/-- The `HashMap::insert` semantics for the output mapping of `parse`,
represented as an association list: replace the value of an existing key,
otherwise add the binding.  Last write wins on duplicate field names. -/
def hm_insert (m : List (String × Nat)) (name : String) (value : Nat) :
    List (String × Nat) :=
  if m.any fun p => p.1 = name then
    m.map fun p => if p.1 = name then (name, value) else p
  else
    m ++ [(name, value)]

/-- The field loop of `src/structures/common.rs` `parse`: for each
`(name, ctype)` pair, look up the width (`StructureError` on an unknown
tag), split that many bytes off the front of the remaining data
(`StructureError` when too few remain, as `split_off` returns `None`),
decode them, and insert the value into the mapping. -/
def parse_fields (data : List Nat) (fields : List (String × String))
    (endianness : String) (acc : List (String × Nat)) :
    Except StructureError (List (String × Nat)) :=
  match fields with
  | [] => .ok acc
  | (name, ctype) :: rest =>
    match type_to_size ctype with
    | none => .error ⟨⟩
    | some csize =>
      if csize ≤ data.length then
        match decode_field csize (data.take csize) endianness with
        | .error e => .error e
        | .ok value =>
          parse_fields (data.drop csize) rest endianness
            (hm_insert acc name value)
      else
        .error ⟨⟩

/-- Embeds `src/structures/common.rs` `parse`: apply a declarative structure
over raw data, returning the mapping from field name to value. -/
def parse (data : List Nat) (st : List (String × String))
    (endianness : String) : Except StructureError (List (String × Nat)) :=
  parse_fields data st endianness []

/-- Embeds `src/structures/common.rs` `size`: total size of a structure
definition; unknown type tags contribute zero (the loop `continue`s). -/
def size : List (String × String) → Nat
  | [] => 0
  | (_, ctype) :: rest =>
    (match type_to_size ctype with
     | none => 0
     | some member_size => member_size) + size rest

/-- Little-endian encoding of `v` into `w` bytes (least significant
first); this is `uXX::to_le_bytes` restricted to `w` bytes. -/
def encode_le : Nat → Nat → List Nat
  | 0, _ => []
  | w + 1, v => v % 256 :: encode_le w (v / 256)

/-- Encoding of `v` into `w` bytes in the given endianness; big-endian is
the byte-reversed little-endian encoding (`uXX::to_be_bytes`). -/
def encode_bytes (endianness : String) (w v : Nat) : List Nat :=
  if endianness = "big" then (encode_le w v).reverse else encode_le w v

/-- Useful LZMA header data (`src/structures/lzma.rs` `LZMAHeader`). -/
structure LZMAHeader where
  properties : Nat
  dictionary_size : Nat
  decompressed_size : Nat
deriving DecidableEq, Repr

/-- Embeds `src/structures/lzma.rs` `parse_lzma_header`.  The packed
`LZMAHeaderBytes` layout is 14 bytes: `properties` at 0, `dictionary_size`
(u32 LE) at 1, `decompressed_size` (u64 LE) at 5, `null_byte` at 13;
`ref_from_prefix` fails on fewer than 14 bytes. -/
def parse_lzma_header (lzma_data : List Nat) :
    Except StructureError LZMAHeader :=
  if 14 ≤ lzma_data.length then
    let decompressed_size := readLE lzma_data 5 8
    if lzma_data.getD 13 0 = 0 then
      if 256 ≤ decompressed_size ∧
          (decompressed_size = 0xFFFFFFFFFFFFFFFF ∨
            decompressed_size ≤ 0xFFFFFFFF) then
        .ok ⟨lzma_data.getD 0 0, readLE lzma_data 1 4, decompressed_size⟩
      else
        .error ⟨⟩
    else
      .error ⟨⟩
  else
    .error ⟨⟩

/-- Linux ARM64 boot image header info (`src/structures/linux.rs`). -/
structure LinuxARM64BootHeader where
  header_size : Nat
  image_size : Nat
  endianness : String
deriving DecidableEq, Repr

/-- Embeds `src/structures/linux.rs` `parse_linux_arm64_boot_image_header`.
The packed `BootImageHeader` layout is 64 bytes: `code0`/`code1` (u32) at
0/4, `image_load_offset` (u64) at 8, `image_size` (u64) at 16, `flags`
(u64) at 24, `reserved1..3` (u64) at 32/40/48, `magic` (u32) at 56,
`pe_offset` (u32) at 60.  `ref_from_bytes` demands the input be exactly
64 bytes long.  `img_data.get(pe_start..pe_end)` is `Some` exactly when
`pe_end ≤ img_data.len()`. -/
def parse_linux_arm64_boot_image_header (img_data : List Nat) :
    Except StructureError LinuxARM64BootHeader :=
  if img_data.length = 64 then
    -- `if !(reserved1 == 0 && reserved2 == 0 && reserved3 == 0) { return Err }`:
    -- written positively, the parse continues exactly when all three are zero
    if readLE img_data 32 8 = 0 ∧ readLE img_data 40 8 = 0 ∧
        readLE img_data 48 8 = 0 then
      let pe_start := readLE img_data 60 4
      let pe_end := pe_start + 2
      if pe_end ≤ img_data.length then
        -- `if pe_data != PE { return Err }`, written positively
        if (img_data.drop pe_start).take 2 = [0x50, 0x45] then
          if readLE img_data 24 8 &&& 0xFFFFFFFFFFFFFFF0 = 0 then
            .ok ⟨64, readLE img_data 16 8,
              if readLE img_data 24 8 &&& 1 = 1 then "big" else "little"⟩
          else
            .error ⟨⟩
        else
          .error ⟨⟩
      else
        .error ⟨⟩
    else
      .error ⟨⟩
  else
    .error ⟨⟩

/-- Embeds `src/structures/bmp.rs` `get_dib_header_size`.  The source slices
`bmp_data[..4]` with no bounds check, which panics when fewer than 4
bytes are available; `none` models that panic. -/
def get_dib_header_size (bmp_data : List Nat) :
    Option (Except StructureError Nat) :=
  if 4 ≤ bmp_data.length then
    let header_size := readLE bmp_data 0 4
    if ¬[12, 40, 108, 124].contains header_size then
      some (.error ⟨⟩)
    else
      some (.ok header_size)
  else
    none

/-- A 14-byte LZMA candidate whose decompressed-size field is 255 and
whose trailing byte is 0. -/
def lzma255Buf : List Nat :=
  [0x5D, 0, 0, 0, 1, 255, 0, 0, 0, 0, 0, 0, 0, 0]

/-- A 14-byte LZMA candidate whose decompressed-size field is the
all-ones streamed-data sentinel `0xFFFFFFFFFFFFFFFF`. -/
def lzmaSentinelBuf : List Nat :=
  [0x5D, 0, 0, 4, 0, 255, 255, 255, 255, 255, 255, 255, 255, 0]

/-- A 64-byte ARM64 boot image candidate: `pe_offset = 0` pointing at the
leading literal `"PE"`, and all reserved fields and flags zero. -/
def arm64OkData : List Nat := [0x50, 0x45] ++ List.replicate 62 0

/-- Autel ECC header info (`src/structures/autel.rs` `AutelECCHeader`). -/
structure AutelECCHeader where
  data_size : Nat
  header_size : Nat
deriving DecidableEq, Repr

/-- Embeds `src/common.rs` `get_cstring` at the byte level: the prefix of the
raw bytes up to (excluding) the first NUL.  The Rust function decodes
those bytes as UTF-8 (yielding the empty string on a decode error); the
only use in the embedded code compares the result against an ASCII
literal, and that comparison holds exactly when the byte prefix equals
the literal byte-for-byte, so the byte-level model is faithful. -/
def get_cstring (raw_data : List Nat) : List Nat :=
  raw_data.takeWhile fun raw_byte => raw_byte ≠ 0

/-- UTF-8 bytes of the literal `"Copyright Autel"`
(`EXPECTED_COPYRIGHT_STRING` of `src/structures/autel.rs`). -/
def expected_copyright : List Nat :=
  [0x43, 0x6F, 0x70, 0x79, 0x72, 0x69, 0x67, 0x68, 0x74, 0x20, 0x41, 0x75,
    0x74, 0x65, 0x6C]

/-- Embeds `src/structures/autel.rs` `parse_autel_header`.  The packed
`AutelEccHeaderBytes` layout is 32 bytes: `magic` (u64) at 0, `data_size`
(u32 LE) at 8, `header_size` (u32 LE) at 12, `copyright` (16 raw bytes)
at 16; `ref_from_prefix` fails below 32 bytes.  Valid only when the
reported header size equals the protocol constant 0x20 and the
NUL-terminated copyright string equals the expected literal. -/
def parse_autel_header (autel_data : List Nat) :
    Except StructureError AutelECCHeader :=
  if 32 ≤ autel_data.length then
    if readLE autel_data 12 4 = 0x20 then
      if get_cstring ((autel_data.drop 16).take 16) = expected_copyright then
        .ok ⟨readLE autel_data 8 4, readLE autel_data 12 4⟩
      else
        .error ⟨⟩
    else
      .error ⟨⟩
  else
    .error ⟨⟩

/-- Modelled from the spec: `src/extractors/common.rs` is not under
`src/`; per the spec the extraction result is
`{success: boolean, size: optional integer}` with `success = false` and
no size as the default value. -/
structure ExtractionResult where
  success : Bool
  size : Option Nat
deriving DecidableEq, Repr

/-- The `Default::default()` extraction result: failure, no size. -/
def default_extraction_result : ExtractionResult := ⟨false, none⟩

/-- Modelled from the spec: the sandboxed writer (`Chroot` of the missing
`src/extractors/common.rs`) confines writes beneath one output root and
each write reports success or failure; only that boolean outcome is
observable by the extractors modelled here. -/
structure Chroot where
  append_to_file : String → List Nat → Bool

/-- The `ADDS` lookup table of `src/extractors/autel.rs`
`decode_autel_block` (256 entries). -/
def ADDS : List Nat :=
  [54, 96, 59, 191, 45, 96, 27, 152, 44, 118, 115, 210, 13, 27, 20, 139, 28,
  17, 19, 224, 20, 145, 14, 12, 18, 17, 29, 246, 115, 28, 155, 12, 31, 20,
  27, 142, 96, 18, 145, 23, 13, 13, 23, 19, 27, 83, 146, 145, 18, 96, 13,
  159, 96, 20, 20, 27, 9, 96, 13, 159, 96, 142, 31, 155, 7, 224, 20, 27,
  28, 17, 19, 96, 76, 208, 80, 78, 96, 27, 24, 140, 96, 17, 12, 224, 14,
  17, 151, 14, 16, 96, 13, 155, 20, 29, 23, 24, 27, 10, 96, 140, 14, 17,
  16, 144, 11, 13, 96, 17, 12, 96, 28, 27, 27, 18, 96, 31, 96, 13, 23, 224,
  27, 142, 27, 24, 12, 96, 84, 14, 27, 10, 155, 9, 17, 56, 96, 82, 13, 27,
  20, 139, 28, 145, 19, 118, 115, 20, 145, 14, 12, 146, 17, 29, 96, 28, 27,
  140, 31, 148, 27, 14, 83, 18, 17, 23, 13, 13, 151, 147, 27, 96, 19, 159,
  14, 25, 17, 142, 16, 27, 14, 224, 17, 12, 224, 28, 27, 13, 11, 96, 27,
  30, 224, 146, 31, 29, 96, 140, 31, 24, 140, 96, 27, 29, 31, 154, 14, 27,
  140, 18, 23, 96, 21, 14, 17, 9, 12, 155, 18, 96, 27, 148, 29, 23, 24,
  155, 10, 96, 28, 14, 31, 28, 18, 31, 12, 13, 96, 31, 96, 13, 27, 18, 23,
  26, 27, 156, 96, 79, 211, 76, 77, 75, 206, 182, 96, 59, 191, 173
  ]

/-- The `XORS` lookup table of `src/extractors/autel.rs`
`decode_autel_block` (256 entries). -/
def XORS : List Nat :=
  [147, 129, 193, 0, 130, 144, 129, 0, 180, 141, 129, 0, 164, 133, 192, 0,
  166, 133, 193, 0, 161, 0, 193, 132, 161, 140, 192, 0, 178, 132, 0, 132,
  165, 136, 193, 0, 164, 133, 0, 132, 165, 148, 193, 132, 178, 137, 0, 0,
  166, 148, 193, 0, 166, 129, 193, 132, 160, 148, 192, 0, 180, 0, 193, 0,
  166, 0, 192, 132, 160, 149, 193, 132, 164, 0, 192, 132, 160, 144, 193, 0,
  178, 141, 193, 0, 161, 141, 0, 132, 165, 137, 193, 0, 161, 141, 192, 132,
  178, 133, 192, 0, 180, 133, 192, 0, 163, 141, 192, 132, 178, 141, 192,
  132, 130, 141, 193, 132, 181, 140, 193, 0, 166, 0, 192, 132, 183, 133,
  192, 132, 178, 140, 0, 132, 160, 133, 192, 132, 160, 137, 193, 0, 161, 0,
  192, 132, 165, 132, 0, 132, 167, 0, 193, 132, 176, 144, 193, 0, 180, 0,
  192, 132, 160, 137, 193, 132, 165, 145, 0, 0, 178, 137, 193, 0, 160, 148,
  193, 0, 180, 136, 193, 0, 178, 144, 0, 132, 160, 141, 193, 132, 165, 140,
  0, 0, 165, 129, 192, 0, 161, 145, 0, 132, 165, 140, 192, 0, 161, 145, 0,
  132, 167, 140, 129, 132, 165, 137, 193, 0, 161, 141, 192, 0, 178, 133,
  192, 0, 180, 133, 192, 132, 130, 129, 193, 132, 180, 144, 193, 132, 160,
  141, 193, 132, 181, 140, 193, 0, 166, 141, 0, 132, 160, 133, 0, 0, 129,
  133, 0, 0
  ]

/-- Embeds `src/extractors/autel.rs` `decode_autel_block`:
`decoded[i] = raw[i].wrapping_add(ADDS[i]) ^ XORS[i]`, written over the
enumerated block.  The source asserts `block_data.len() <= 256`; every
call site passes `chunks(256)` blocks and the theorems below restrict to
that domain, so the assertion cannot fire and is not modelled. -/
def decode_autel_block (block_data : List Nat) : List Nat :=
  block_data.enum.map fun p => ((p.2 + ADDS.getD p.1 0) % 256) ^^^ XORS.getD p.1 0

/-- Fuel-indexed workhorse for `chunks256`; the fuel only serves
structural recursion and `l.length` fuel always suffices, since every
step consumes at least one element. -/
def chunks_go (fuel : Nat) (l : List Nat) : List (List Nat) :=
  match fuel, l with
  | _, [] => []
  | 0, _ => []
  | fuel + 1, l => l.take 256 :: chunks_go fuel (l.drop 256)

/-- Models `data.chunks(256)` of the autel extractor loop: successive blocks of
256 bytes, the final block possibly shorter. -/
def chunks256 (l : List Nat) : List (List Nat) := chunks_go l.length l

/-- Embeds `src/extractors/autel.rs` `autel_deobfuscate`.  `&file_data[offset..]`
is modelled by `drop` (the claims only consider in-bounds offsets);
`data.get(data_start..)` is `Some` exactly when `data_start ≤ data.len()`
and `.get(..data_size)` is `Some` exactly when `data_size` bytes remain;
the chunk loop appends each decoded block via the sandboxed writer and
returns the default (failed) result on the first failed write.  Since
the model's writer is a pure success predicate, the early-exit loop
returns success exactly when every append reports success. -/
def autel_deobfuscate (file_data : List Nat) (offset : Nat)
    (output_directory : Option Chroot) : ExtractionResult :=
  let data := file_data.drop offset
  match parse_autel_header data with
  | .error _ => default_extraction_result
  | .ok autel_header =>
    let data_start := autel_header.header_size
    if data_start ≤ data.length then
      if autel_header.data_size ≤ (data.drop data_start).length then
        let autel_data := (data.drop data_start).take autel_header.data_size
        if (chunks256 autel_data).all fun chunk =>
            match output_directory with
            | some chroot =>
              chroot.append_to_file "autel.decoded" (decode_autel_block chunk)
            | none => true then
          ⟨true, some autel_header.data_size⟩
        else
          default_extraction_result
      else
        default_extraction_result
    else
      default_extraction_result

/-- Ghost instrumentation for `autel_deobfuscate`: the number of source
bytes the extractor reads starting at `offset` when it reaches the
decode loop — the 0x20-byte header consumed by `parse_autel_header` plus
the `data_size` payload bytes sliced as `data[header_size..][..data_size]`;
`none` when the extractor bails out before reading the payload. -/
def autel_consumed (file_data : List Nat) (offset : Nat) : Option Nat :=
  let data := file_data.drop offset
  match parse_autel_header data with
  | .error _ => none
  | .ok autel_header =>
    if autel_header.header_size + autel_header.data_size ≤ data.length then
      some (autel_header.header_size + autel_header.data_size)
    else
      none

/-- A 33-byte buffer holding a valid Autel ECC header (`data_size = 1`,
`header_size = 0x20`, the expected copyright literal) followed by a
single payload byte. -/
def autelCounterexampleData : List Nat :=
  [0, 0, 0, 0, 0, 0, 0, 0, 1, 0, 0, 0, 0x20, 0, 0, 0]
    ++ expected_copyright ++ [0] ++ [0xAA]

/-- Embeds `u8::rotate_left(4)`: swap the two nibbles of a byte. -/
def rotl4 (b : Nat) : Nat := ((b % 256) * 16 + b % 256 / 16) % 256

/-- The `chunks_exact_mut(2)` loop of `arcadyan_deobfuscator`: each byte
pair `(a, b)` becomes `(b.rotate_left(4), a.rotate_left(4))`; a trailing
odd element is left unchanged, as `chunks_exact_mut` skips the remainder
(the mutated region is 32 bytes, so no remainder arises in practice). -/
def swap_rot_pairs : List Nat → List Nat
  | a :: b :: rest => rotl4 b :: rotl4 a :: swap_rot_pairs rest
  | l => l

/-- Embeds `src/extractors/arcadyan.rs` `arcadyan_deobfuscator`: the header
parts are `p1 = [0, 4)`, `b1 = [4, 0x24)`, `p2 = [0x24, 0x68)`,
`b2 = [0x68, 0x88)`, `p3 = [0x88, ..)`; the output is
`p1 ++ b2 ++ p2 ++ b1 ++ p3` (blocks swapped) with the in-place pair
mutation applied to the `[4, 0x24)` region of that vector.  The Rust
slice expressions panic on inputs shorter than 0x88 bytes; the claim
(and the guarded caller) only reach inputs of at least 0x88 bytes, on
which `take`/`drop` agree with the source slices. -/
def arcadyan_deobfuscator (obfuscated_data : List Nat) : List Nat :=
  let p1 := obfuscated_data.take 4
  let b1 := (obfuscated_data.drop 4).take 32
  let p2 := (obfuscated_data.drop 0x24).take 0x44
  let b2 := (obfuscated_data.drop 0x68).take 32
  let p3 := obfuscated_data.drop 0x88
  let d := p1 ++ b2 ++ p2 ++ b1 ++ p3
  d.take 4 ++ swap_rot_pairs ((d.drop 4).take 32) ++ d.drop 0x24

end BinwalkNG

namespace BinwalkNG

/-- Claim C2: `is_offset_safe` is safe exactly when the previous offset (if
any) is strictly below the next offset and the next offset is strictly below
the available length; the five documented examples with available length 4. -/
theorem is_offset_safe_spec :
    (∀ a n : Nat, is_offset_safe a n none = true ↔ n < a)
    ∧ (∀ a n q : Nat, is_offset_safe a n (some q) = true ↔ q < n ∧ n < a)
    ∧ is_offset_safe 4 0 none = true
    ∧ is_offset_safe 4 4 none = false
    ∧ is_offset_safe 4 2 (some 1) = true
    ∧ is_offset_safe 4 2 (some 2) = false
    ∧ is_offset_safe 4 1 (some 2) = false := by
  refine ⟨?_, ?_, by decide, by decide, by decide, by decide, by decide⟩
  · intro a n
    simp only [is_offset_safe, Option.any_none, Bool.false_eq_true, if_false]
    split <;> simp <;> omega
  · intro a n q
    simp only [is_offset_safe, Option.any_some]
    split
    · simp_all
    · split <;> simp_all <;> omega

theorem isOk_ok {ε α : Type} (a : α) :
    (Except.ok a : Except ε α).isOk = true := rfl

theorem isOk_error {ε α : Type} (e : ε) :
    (Except.error e : Except ε α).isOk = false := rfl

/-- Claim C1: the spec promises that no fixed-size read happens without a
prior bounds check and that every header validator returns the
parse-failure error on truncated input, but `get_dib_header_size` slices
`bmp_data[..4]` unconditionally: on a 3-byte buffer it panics (modelled
by `none`), while on a 4-byte buffer it behaves as specified. -/
theorem get_dib_header_size_short_input_panics :
    get_dib_header_size [40, 0, 0] = none
    ∧ get_dib_header_size [40, 0, 0, 0] = some (.ok 40) := by
  constructor <;> rfl

/-- Claim C4: `parse_lzma_header` succeeds exactly on buffers that hold
the full 1+4+8+1 layout (14 bytes) with a zero trailing byte and a
decompressed size that is the all-ones sentinel or lies in
`[256, 0xFFFFFFFF]`; on success it reports exactly the parsed
properties, dictionary size and decompressed size; decompressed size 255
is rejected and the all-ones sentinel is accepted. -/
theorem parse_lzma_header_spec :
    (∀ data : List Nat,
      ((parse_lzma_header data).isOk = true ↔
        (14 ≤ data.length ∧ data.getD 13 0 = 0 ∧
          (readLE data 5 8 = 0xFFFFFFFFFFFFFFFF ∨
            (256 ≤ readLE data 5 8 ∧ readLE data 5 8 ≤ 0xFFFFFFFF))))
      ∧ ∀ h, parse_lzma_header data = .ok h →
          h = ⟨data.getD 0 0, readLE data 1 4, readLE data 5 8⟩)
    ∧ parse_lzma_header lzma255Buf = .error ⟨⟩
    ∧ (parse_lzma_header lzmaSentinelBuf).isOk = true := by
  refine ⟨fun data => ⟨?_, ?_⟩, by rfl, by rfl⟩
  · simp only [parse_lzma_header]
    split_ifs with h1 h2 h3
    · exact iff_of_true (isOk_ok _) ⟨h1, h2, by omega⟩
    · refine iff_of_false (by simp [isOk_error]) ?_
      omega
    · refine iff_of_false (by simp [isOk_error]) ?_
      omega
    · refine iff_of_false (by simp [isOk_error]) ?_
      omega
  · simp only [parse_lzma_header]
    split_ifs with h1 h2 h3 <;> intro h heq <;> simp_all

/-- Claim C5 counterexample: a fully valid 64-byte ARM64 boot image
buffer parses, but the same buffer extended by one byte — still "at
least as long as the fixed layout", with every referenced field
unchanged, the reserved fields zero and the in-bounds `"PE"` literal
intact — is rejected, because `ref_from_bytes` requires the input to be
exactly the layout size. -/
theorem parse_linux_arm64_longer_buffer_rejected :
    parse_linux_arm64_boot_image_header arm64OkData =
      .ok ⟨64, 0, "little"⟩
    ∧ parse_linux_arm64_boot_image_header (arm64OkData ++ [0]) = .error ⟨⟩
    ∧ (arm64OkData ++ [0]).length = 65 := by
  refine ⟨by rfl, by rfl, by rfl⟩

/-- Claim C5 (amended): `parse_linux_arm64_boot_image_header` returns a
header iff the buffer is exactly the 64-byte layout, the three 64-bit
reserved fields are zero, the PE-offset field points (bounds-checked
within the buffer) at the 2-byte literal `"PE"`, and all flag bits above
the low 4 are zero; on success the endianness is `"big"` exactly when
bit 0 of flags is 1, the header size is 64 and the image size is the
parsed 64-bit field. -/
theorem parse_linux_arm64_spec :
    ∀ img : List Nat,
      ((parse_linux_arm64_boot_image_header img).isOk = true ↔
        (img.length = 64 ∧ readLE img 32 8 = 0 ∧ readLE img 40 8 = 0 ∧
          readLE img 48 8 = 0 ∧ readLE img 60 4 + 2 ≤ 64 ∧
          (img.drop (readLE img 60 4)).take 2 = [0x50, 0x45] ∧
          readLE img 24 8 &&& 0xFFFFFFFFFFFFFFF0 = 0))
      ∧ ∀ h, parse_linux_arm64_boot_image_header img = .ok h →
          h.header_size = 64 ∧ h.image_size = readLE img 16 8 ∧
          h.endianness =
            (if readLE img 24 8 % 2 = 1 then "big" else "little") := by
  intro img
  constructor
  · simp only [parse_linux_arm64_boot_image_header]
    split_ifs with h1 h2 h3 h4 h5 h6
    · exact iff_of_true (isOk_ok _)
        ⟨h1, h2.1, h2.2.1, h2.2.2, by omega, h4, h5⟩
    · exact iff_of_true (isOk_ok _)
        ⟨h1, h2.1, h2.2.1, h2.2.2, by omega, h4, h5⟩
    · exact iff_of_false (by simp [isOk_error]) fun hc => h5 hc.2.2.2.2.2.2
    · exact iff_of_false (by simp [isOk_error]) fun hc => h4 hc.2.2.2.2.2.1
    · exact iff_of_false (by simp [isOk_error]) fun hc => h3 (by omega)
    · exact iff_of_false (by simp [isOk_error])
        fun hc => h2 ⟨hc.2.1, hc.2.2.1, hc.2.2.2.1⟩
    · exact iff_of_false (by simp [isOk_error]) fun hc => h1 hc.1
  · intro h heq
    simp only [parse_linux_arm64_boot_image_header] at heq
    split_ifs at heq with h1 h2 h3 h4 h5 h6
    · cases heq
      exact ⟨rfl, rfl, by simp [← Nat.and_one_is_mod, h6]⟩
    · cases heq
      exact ⟨rfl, rfl, by simp [← Nat.and_one_is_mod, h6]⟩
    all_goals simp at heq

/-- Claim C5 witness: the characterization applied to the concrete valid
64-byte buffer. -/
theorem parse_linux_arm64_spec_witness :
    (parse_linux_arm64_boot_image_header arm64OkData).isOk = true :=
  ((parse_linux_arm64_spec arm64OkData).1).mpr (by decide)

/-- Claim C4 witness: the success-value clause applied to the concrete
sentinel buffer. -/
theorem parse_lzma_header_spec_witness :
    (⟨0x5D, 0x40000, 0xFFFFFFFFFFFFFFFF⟩ : LZMAHeader) =
      ⟨lzmaSentinelBuf.getD 0 0, readLE lzmaSentinelBuf 1 4,
        readLE lzmaSentinelBuf 5 8⟩ :=
  (parse_lzma_header_spec.1 lzmaSentinelBuf).2 _ (by rfl)

theorem type_to_size_cases {c : String} {s : Nat}
    (h : type_to_size c = some s) :
    s = 1 ∨ s = 2 ∨ s = 3 ∨ s = 4 ∨ s = 8 := by
  unfold type_to_size at h
  split at h <;> simp_all

theorem decode_field_total {s : Nat} (raw : List Nat) (e : String)
    (hs : s = 1 ∨ s = 2 ∨ s = 3 ∨ s = 4 ∨ s = 8) :
    ∃ v, decode_field s raw e = .ok v := by
  rcases hs with rfl | rfl | rfl | rfl | rfl <;>
    unfold decode_field <;> (try split_ifs) <;> exact ⟨_, rfl⟩

theorem parse_fields_isOk_iff :
    ∀ (fields : List (String × String)) (data : List Nat) (e : String)
      (acc : List (String × Nat)),
      (parse_fields data fields e acc).isOk = true ↔
        ((∀ f ∈ fields, (type_to_size f.2).isSome = true) ∧
          size fields ≤ data.length) := by
  intro fields
  induction fields with
  | nil =>
    intro data e acc
    simp [parse_fields, size, isOk_ok]
  | cons f rest ih =>
    intro data e acc
    obtain ⟨name, ctype⟩ := f
    rcases hts : type_to_size ctype with _ | csize
    · simp [parse_fields, hts, isOk_error, List.forall_mem_cons]
    · by_cases hle : csize ≤ data.length
      · obtain ⟨v, hv⟩ := decode_field_total (data.take csize) e
          (type_to_size_cases hts)
        simp only [parse_fields, hts, if_pos hle, hv, ih,
          List.forall_mem_cons, size, List.length_drop]
        constructor
        · rintro ⟨ha, hb⟩
          exact ⟨⟨by simp [hts], ha⟩, by omega⟩
        · rintro ⟨⟨_, ha⟩, hb⟩
          exact ⟨ha, by omega⟩
      · simp only [parse_fields, hts, if_neg hle, isOk_error,
          List.forall_mem_cons, size]
        constructor
        · intro hfalse
          cases hfalse
        · rintro ⟨_, hb⟩
          omega

/-- Claim C10: `parse` succeeds exactly when every type tag of the
descriptor is recognized and the buffer holds at least `size` bytes; the
empty descriptor always yields the empty mapping; field names and the
endianness argument never influence success (neither occurs in the
right-hand side of the characterization). -/
theorem parse_success_iff :
    ∀ (data : List Nat) (st : List (String × String)) (e : String),
      ((parse data st e).isOk = true ↔
        ((∀ f ∈ st, (type_to_size f.2).isSome = true) ∧
          size st ≤ data.length))
      ∧ parse data [] e = .ok [] :=
  fun data st e => ⟨parse_fields_isOk_iff st data e [], rfl⟩

/-- Claim C10 witness: the characterization applied to a concrete buffer
and descriptor. -/
theorem parse_success_iff_witness :
    (parse [1, 2, 3] [("a", "u16")] "little").isOk = true :=
  (parse_success_iff [1, 2, 3] [("a", "u16")] "little").1.mpr (by decide)

theorem decode_field_endianness (csize : Nat) (raw : List Nat) {e : String}
    (h : e ≠ "big") :
    decode_field csize raw e = decode_field csize raw "little" := by
  unfold decode_field
  split <;> simp [h]

theorem parse_fields_endianness :
    ∀ (fields : List (String × String)) (data : List Nat)
      (acc : List (String × Nat)) {e : String}, e ≠ "big" →
      parse_fields data fields e acc = parse_fields data fields "little" acc := by
  intro fields
  induction fields with
  | nil => intro data acc e h; rfl
  | cons f rest ih =>
    intro data acc e h
    obtain ⟨name, ctype⟩ := f
    rcases hts : type_to_size ctype with _ | csize
    · simp [parse_fields, hts]
    · by_cases hle : csize ≤ data.length
      · simp only [parse_fields, hts, if_pos hle,
          decode_field_endianness csize _ h]
        cases decode_field csize (data.take csize) "little" with
        | error err => rfl
        | ok v => exact ih _ _ h
      · simp [parse_fields, hts, hle]

/-- Claim C6: any endianness literal other than exactly `"big"` falls
through to the little-endian path: `parse` returns the same result as
with `"little"`. -/
theorem parse_endianness_fallback :
    ∀ (data : List Nat) (st : List (String × String)) (e : String),
      e ≠ "big" → parse data st e = parse data st "little" :=
  fun _ st _ h => parse_fields_endianness st _ _ h

/-- Claim C6 witness: the fallback applied to a concrete unrecognized
endianness literal. -/
theorem parse_endianness_fallback_witness :
    parse [1, 2] [("x", "u16")] "BIG" = parse [1, 2] [("x", "u16")] "little" :=
  parse_endianness_fallback [1, 2] [("x", "u16")] "BIG" (by decide)

/-- Claim C7: for each supported width and both endiannesses,
encoding an in-range integer and parsing it back through a single-field
structure of the corresponding type tag reproduces the integer exactly
(the 3-byte `"u24"` field included). -/
theorem parse_encode_roundtrip :
    ∀ (nm e t : String) (w v : Nat),
      (t, w) ∈ ([("u8", 1), ("u16", 2), ("u24", 3), ("u32", 4),
        ("u64", 8)] : List (String × Nat)) →
      (e = "big" ∨ e = "little") → v < 256 ^ w →
      parse (encode_bytes e w v) [(nm, t)] e = .ok [(nm, v)] := by
  intro nm e t w v hmem he hv
  simp only [List.mem_cons, List.mem_singleton, Prod.mk.injEq] at hmem
  rcases hmem with ⟨rfl, rfl⟩ | ⟨rfl, rfl⟩ | ⟨rfl, rfl⟩ | ⟨rfl, rfl⟩ |
    ⟨rfl, rfl⟩ | hfalse
  all_goals try (norm_num at hv; rcases he with rfl | rfl <;>
    simp [parse, parse_fields, type_to_size, encode_bytes, encode_le,
      decode_field, hm_insert] <;> omega)
  simp at hfalse

/-- Claim C7 witness: the round trip at width 3 (`"u24"`), big endian,
on a concrete value. -/
theorem parse_encode_roundtrip_witness :
    parse (encode_bytes "big" 3 0x123456) [("f", "u24")] "big" =
      .ok [("f", 0x123456)] :=
  parse_encode_roundtrip "f" "big" "u24" 3 0x123456 (by decide)
    (Or.inl rfl) (by norm_num)

theorem parse_autel_header_size {d : List Nat} {hdr : AutelECCHeader}
    (hp : parse_autel_header d = .ok hdr) : hdr.header_size = 0x20 := by
  unfold parse_autel_header at hp
  split_ifs at hp with h1 h2 h3
  · cases hp
    exact h2
  all_goals simp at hp

/-- Claim C3 counterexample: on a concrete 33-byte buffer the Autel
extractor succeeds with `size = Some 1`, yet it consumed 33 bytes from
the source starting at the offset (the 0x20-byte header plus the 1-byte
declared payload), so the reported size is not the number of bytes
consumed. -/
theorem autel_size_not_consumed :
    autel_deobfuscate autelCounterexampleData 0 none = ⟨true, some 1⟩
    ∧ autel_consumed autelCounterexampleData 0 = some 33
    ∧ (1 : Nat) ≠ 33 := by
  refine ⟨by rfl, by rfl, by decide⟩

/-- Claim C3 (amended): for the Autel internal extractor, whenever the
result carries `size = Some(n)`, the extractor consumed `0x20 + n` bytes
from the source starting at the offset — the 0x20-byte header plus the
declared `n`-byte payload — so the reported size is the payload length,
not the bytes consumed. -/
theorem autel_size_reports_payload :
    ∀ (file_data : List Nat) (offset n : Nat),
      (autel_deobfuscate file_data offset none).size = some n →
      autel_consumed file_data offset = some (0x20 + n) := by
  intro file_data offset n h
  unfold autel_deobfuscate at h
  unfold autel_consumed
  dsimp only at h ⊢
  rcases hp : parse_autel_header (file_data.drop offset) with err | hdr
  · rw [hp] at h
    simp [default_extraction_result] at h
  · rw [hp] at h
    dsimp only at h
    split_ifs at h with h1 h2 h3
    · simp only at h
      rw [Option.some.injEq] at h
      have hhs : hdr.header_size = 0x20 := parse_autel_header_size hp
      simp only [List.length_drop] at h1 h2 ⊢
      rw [if_pos (by omega)]
      rw [hhs, h]
    · simp [default_extraction_result] at h
    · simp [default_extraction_result] at h
    · simp [default_extraction_result] at h

/-- Claim C3 witness: the amended size relation applied at the concrete
33-byte buffer. -/
theorem autel_size_reports_payload_witness :
    autel_consumed autelCounterexampleData 0 = some (0x20 + 1) :=
  autel_size_reports_payload autelCounterexampleData 0 1 (by rfl)

theorem enum_eq_enumFrom_zero (l : List Nat) :
    l.enum = List.enumFrom 0 l := rfl

theorem decode_autel_block_pointwise (l : List Nat) (i : Nat)
    (hi : i < l.length) :
    (decode_autel_block l).getD i 0 =
      ((l.getD i 0 + ADDS.getD i 0) % 256) ^^^ XORS.getD i 0 := by
  unfold decode_autel_block
  rw [List.getD_eq_getElem?_getD, List.getElem?_map, enum_eq_enumFrom_zero,
    List.getElem?_enumFrom, List.getElem?_eq_getElem hi,
    List.getD_eq_getElem?_getD, List.getElem?_eq_getElem hi]
  simp

set_option maxRecDepth 4000 in
/-- Claim C9: on blocks of at most 256 bytes, `decode_autel_block`
preserves the length and computes
`decoded[i] = ((raw[i] + ADDS[i]) mod 256) xor XORS[i]`, using only the
first `N` table entries; consequently an all-zero 256-byte block decodes
to `ADDS[i] xor XORS[i]` at every position. -/
theorem decode_autel_block_spec :
    ∀ block_data : List Nat, block_data.length ≤ 256 →
      (decode_autel_block block_data).length = block_data.length
      ∧ (∀ i < block_data.length,
          (decode_autel_block block_data).getD i 0 =
            ((block_data.getD i 0 + ADDS.getD i 0) % 256) ^^^ XORS.getD i 0)
      ∧ (∀ i < 256,
          (decode_autel_block (List.replicate 256 0)).getD i 0 =
            ADDS.getD i 0 ^^^ XORS.getD i 0) := by
  intro block_data _
  refine ⟨?_, fun i hi => decode_autel_block_pointwise block_data i hi, ?_⟩
  · unfold decode_autel_block
    simp [List.enum]
  · intro i hi
    rw [decode_autel_block_pointwise (List.replicate 256 0) i (by simp [hi])]
    have hlt : ADDS.getD i 0 < 256 :=
      (by decide : ∀ j < 256, ADDS.getD j 0 < 256) i hi
    rw [List.getD_eq_getElem?_getD, List.getElem?_replicate_of_lt hi]
    simp only [Option.getD_some, Nat.zero_add]
    rw [Nat.mod_eq_of_lt hlt]

/-- Claim C9 witness: the spec applied to a concrete 1-byte block. -/
theorem decode_autel_block_spec_witness :
    (decode_autel_block [5]).length = [5].length :=
  (decode_autel_block_spec [5] (by decide)).1

theorem swap_rot_pairs_length : ∀ l : List Nat,
    (swap_rot_pairs l).length = l.length
  | [] => rfl
  | [_] => rfl
  | _ :: _ :: rest => by
    simp only [swap_rot_pairs, List.length_cons, swap_rot_pairs_length rest]

theorem swap_rot_pairs_getElem? : ∀ (l : List Nat) (k : Nat),
    2 * k + 1 < l.length →
    (swap_rot_pairs l)[2 * k]? = (l[2 * k + 1]?).map rotl4
    ∧ (swap_rot_pairs l)[2 * k + 1]? = (l[2 * k]?).map rotl4
  | [], k, h => by
    simp only [List.length_nil] at h
    omega
  | [_], k, h => by
    simp only [List.length_cons, List.length_nil] at h
    omega
  | a :: b :: rest, 0, _ => by
    simp [swap_rot_pairs]
  | a :: b :: rest, k + 1, h => by
    have hrec := swap_rot_pairs_getElem? rest k (by
      simp only [List.length_cons] at h
      omega)
    have e1 : 2 * (k + 1) = 2 * k + 1 + 1 := by ring
    rw [e1]
    simp only [swap_rot_pairs, List.getElem?_cons_succ]
    exact hrec

theorem getD_map_rotl4 (o : Option Nat) :
    (o.map rotl4).getD 0 = rotl4 (o.getD 0) := by
  cases o
  · simp [rotl4]
  · simp

/-- Claim C8: on inputs of at least 0x88 bytes `arcadyan_deobfuscator`
preserves the length; the `[4, 0x24)` block of the output holds the
pair-rotated bytes of the input block at `[0x68, 0x88)` (each pair
`(a, b)` becoming `(rotl(b, 4), rotl(a, 4))`), the `[0x68, 0x88)` block
of the output holds the unmodified input block from `[4, 0x24)`, and
every byte outside the two swapped block regions is unchanged. -/
theorem arcadyan_deobfuscator_spec :
    ∀ obf : List Nat, 0x88 ≤ obf.length →
      (arcadyan_deobfuscator obf).length = obf.length
      ∧ (∀ i < 4, (arcadyan_deobfuscator obf).getD i 0 = obf.getD i 0)
      ∧ (∀ k < 16,
          (arcadyan_deobfuscator obf).getD (4 + 2 * k) 0 =
            rotl4 (obf.getD (0x68 + (2 * k + 1)) 0)
          ∧ (arcadyan_deobfuscator obf).getD (4 + (2 * k + 1)) 0 =
            rotl4 (obf.getD (0x68 + 2 * k) 0))
      ∧ (∀ i, 0x24 ≤ i → i < 0x68 →
          (arcadyan_deobfuscator obf).getD i 0 = obf.getD i 0)
      ∧ (∀ i, 0x68 ≤ i → i < 0x88 →
          (arcadyan_deobfuscator obf).getD i 0 = obf.getD (i - 0x64) 0)
      ∧ (∀ i, 0x88 ≤ i →
          (arcadyan_deobfuscator obf).getD i 0 = obf.getD i 0) := by
  intro obf hlen
  have hp1 : (obf.take 4).length = 4 := by
    simp only [List.length_take]
    omega
  have hb1 : ((obf.drop 4).take 32).length = 32 := by
    simp only [List.length_take, List.length_drop]
    omega
  have hp2 : ((obf.drop 0x24).take 0x44).length = 0x44 := by
    simp only [List.length_take, List.length_drop]
    omega
  have hb2 : ((obf.drop 0x68).take 32).length = 32 := by
    simp only [List.length_take, List.length_drop]
    omega
  have hsw : (swap_rot_pairs ((obf.drop 0x68).take 32)).length = 32 := by
    rw [swap_rot_pairs_length]
    exact hb2
  have hform : arcadyan_deobfuscator obf =
      obf.take 4 ++ swap_rot_pairs ((obf.drop 0x68).take 32) ++
        ((obf.drop 0x24).take 0x44 ++ ((obf.drop 4).take 32 ++
          obf.drop 0x88)) := by
    simp only [arcadyan_deobfuscator]
    have hassoc : obf.take 4 ++ (obf.drop 0x68).take 32 ++
        (obf.drop 0x24).take 0x44 ++ (obf.drop 4).take 32 ++
          obf.drop 0x88 =
        obf.take 4 ++ ((obf.drop 0x68).take 32 ++
          ((obf.drop 0x24).take 0x44 ++ ((obf.drop 4).take 32 ++
            obf.drop 0x88))) := by
      simp [List.append_assoc]
    congr 1
    · congr 1
      · rw [hassoc, List.take_left' hp1]
      · rw [hassoc, List.drop_left' hp1, List.take_left' hb2]
    · have hassoc2 : obf.take 4 ++ (obf.drop 0x68).take 32 ++
          (obf.drop 0x24).take 0x44 ++ (obf.drop 4).take 32 ++
            obf.drop 0x88 =
          (obf.take 4 ++ (obf.drop 0x68).take 32) ++
            ((obf.drop 0x24).take 0x44 ++ ((obf.drop 4).take 32 ++
              obf.drop 0x88)) := by
        simp [List.append_assoc]
      rw [hassoc2,
        List.drop_left' (by rw [List.length_append, hp1, hb2])]
  have hlen36 : (obf.take 4 ++
      swap_rot_pairs ((obf.drop 0x68).take 32)).length = 36 := by
    rw [List.length_append, hp1, hsw]
  refine ⟨?_, ?_, ?_, ?_, ?_, ?_⟩
  · rw [hform]
    simp only [List.length_append, hp1, hsw, hp2, hb1, List.length_drop]
    omega
  · intro i hi
    rw [hform]
    simp only [List.getD_eq_getElem?_getD]
    rw [List.getElem?_append_left (by rw [hlen36]; omega),
      List.getElem?_append_left (by rw [hp1]; omega),
      List.getElem?_take_of_lt hi]
  · intro k hk
    constructor
    · rw [hform]
      simp only [List.getD_eq_getElem?_getD]
      rw [List.getElem?_append_left (by rw [hlen36]; omega),
        List.getElem?_append_right (by rw [hp1]; omega), hp1,
        show 4 + 2 * k - 4 = 2 * k from by omega,
        (swap_rot_pairs_getElem? ((obf.drop 0x68).take 32) k
          (by rw [hb2]; omega)).1,
        List.getElem?_take_of_lt (show 2 * k + 1 < 32 by omega),
        List.getElem?_drop, getD_map_rotl4]
    · rw [hform]
      simp only [List.getD_eq_getElem?_getD]
      rw [List.getElem?_append_left (by rw [hlen36]; omega),
        List.getElem?_append_right (by rw [hp1]; omega), hp1,
        show 4 + (2 * k + 1) - 4 = 2 * k + 1 from by omega,
        (swap_rot_pairs_getElem? ((obf.drop 0x68).take 32) k
          (by rw [hb2]; omega)).2,
        List.getElem?_take_of_lt (show 2 * k < 32 by omega),
        List.getElem?_drop, getD_map_rotl4]
  · intro i h1 h2
    rw [hform]
    simp only [List.getD_eq_getElem?_getD]
    rw [List.getElem?_append_right (by rw [hlen36]; omega), hlen36,
      List.getElem?_append_left (by rw [hp2]; omega),
      List.getElem?_take_of_lt (show i - 36 < 0x44 by omega),
      List.getElem?_drop, show 0x24 + (i - 36) = i from by omega]
  · intro i h1 h2
    rw [hform]
    simp only [List.getD_eq_getElem?_getD]
    rw [List.getElem?_append_right (by rw [hlen36]; omega), hlen36,
      List.getElem?_append_right (by rw [hp2]; omega), hp2,
      List.getElem?_append_left (by rw [hb1]; omega),
      List.getElem?_take_of_lt (show i - 36 - 0x44 < 32 by omega),
      List.getElem?_drop, show 4 + (i - 36 - 0x44) = i - 0x64 from by omega]
  · intro i h1
    rw [hform]
    simp only [List.getD_eq_getElem?_getD]
    rw [List.getElem?_append_right (by rw [hlen36]; omega), hlen36,
      List.getElem?_append_right (by rw [hp2]; omega), hp2,
      List.getElem?_append_right (by rw [hb1]; omega), hb1,
      List.getElem?_drop, show 0x88 + (i - 36 - 0x44 - 32) = i from by omega]

/-- Claim C8 witness: the transform applied to the concrete input
`0, 1, ..., 0x87`: the output byte at index 4 is the nibble-rotation of
the input byte at index 0x69. -/
theorem arcadyan_deobfuscator_spec_witness :
    (arcadyan_deobfuscator (List.range 0x88)).getD (4 + 2 * 0) 0 =
      rotl4 ((List.range 0x88).getD (0x68 + (2 * 0 + 1)) 0) :=
  ((arcadyan_deobfuscator_spec (List.range 0x88)
    (by simp)).2.2.1 0 (by omega)).1

end BinwalkNG
